import Mathlib

/-!
# Camera-puzzle CAPTCHA validator: a shallow embedding

This development embeds the core logic of the camera-puzzle CAPTCHA
validator (`src/components/CaptchaValidator.tsx`, `ShapeValidation.tsx`)
in Lean and proves the stated properties of its challenge generation,
scoring, watermark planning and attempt/blocking state machine.

Randomness is modelled abstractly: each call site of `Math.random` is
replaced by a value supplied by an indexed oracle (a stream of sector
draws, per-sector noise bits and per-sector shape/colour draws), so that
every theorem is quantified over all possible random sources.
-/

namespace Captcha

/-- `ValidationShape` from `CaptchaValidator.tsx`. -/
inductive Shape where
  | triangle
  | square
  | circle
deriving DecidableEq, Repr

/-- `ValidationColor` from `CaptchaValidator.tsx`. -/
inductive Color where
  | red
  | green
  | blue
deriving DecidableEq, Repr

/-- `CapturedData.squarePosition` (JS numbers modelled as rationals;
the core logic never inspects them). -/
structure SquarePosition where
  x : Rat
  y : Rat
  size : Rat
deriving DecidableEq, Repr

/-- `CapturedData` from `CaptchaValidator.tsx`. -/
structure CapturedData where
  imageData : String
  squarePosition : SquarePosition
deriving DecidableEq, Repr

/-- `ValidationChallenge` from `CaptchaValidator.tsx`: `color` is present
only when colour-tint mode is enabled. -/
structure ValidationChallenge where
  shape : Shape
  color : Option Color
  correctSectors : List Nat
deriving DecidableEq, Repr

/-- The scoring check of `handleValidationComplete`
(`CaptchaValidator.tsx` lines 103-106):
`selectedSectors.length === correctSectors.length`
`&& selectedSectors.every(s => correctSectors.includes(s))`
`&& correctSectors.every(s => selectedSectors.includes(s))`. -/
def isCorrect (correctSectors selectedSectors : List Nat) : Bool :=
  (selectedSectors.length == correctSectors.length)
    && selectedSectors.all (fun s => correctSectors.contains s)
    && correctSectors.all (fun s => selectedSectors.contains s)

/-- Unfolding of the scoring check into its three conjuncts:
equal list lengths and the two inclusions. -/
theorem isCorrect_iff_incl (C S : List Nat) :
    isCorrect C S = true ↔
      S.length = C.length ∧ (∀ x ∈ S, x ∈ C) ∧ (∀ x ∈ C, x ∈ S) := by
  simp [isCorrect, List.all_eq_true, and_assoc]

/-- When the correct list is duplicate-free, the scoring check accepts
exactly the duplicate-free selections that denote the same finite set. -/
theorem isCorrect_iff_toFinset (C S : List Nat) (hC : C.Nodup) :
    isCorrect C S = true ↔ S.Nodup ∧ S.toFinset = C.toFinset := by
  rw [isCorrect_iff_incl]
  constructor
  · rintro ⟨hlen, hSC, hCS⟩
    have hset : S.toFinset = C.toFinset := by
      ext x
      simp only [List.mem_toFinset]
      exact ⟨fun h => hSC x h, fun h => hCS x h⟩
    have hcard : S.toFinset.card = C.length := by
      rw [hset, List.toFinset_card_of_nodup hC]
    have hdedup : S.dedup.length = S.length := by
      have h1 : S.toFinset.card = S.dedup.length := List.card_toFinset S
      omega
    have hnodup : S.Nodup := by
      rw [← List.dedup_eq_self]
      exact (List.dedup_sublist S).eq_of_length hdedup
    exact ⟨hnodup, hset⟩
  · rintro ⟨hS, hset⟩
    refine ⟨?_, ?_, ?_⟩
    · have h1 : S.toFinset.card = S.length := List.toFinset_card_of_nodup hS
      have h2 : C.toFinset.card = C.length := List.toFinset_card_of_nodup hC
      rw [hset] at h1
      omega
    · intro x hx
      have : x ∈ S.toFinset := List.mem_toFinset.mpr hx
      rw [hset] at this
      exact List.mem_toFinset.mp this
    · intro x hx
      have : x ∈ C.toFinset := List.mem_toFinset.mpr hx
      rw [← hset] at this
      exact List.mem_toFinset.mp this

/-- **C1.** For a duplicate-free correct set `C` (which every generated
challenge has) and any submitted list `S`, the scoring computation in
`handleValidationComplete` returns `true` iff `S` has the same cardinality
as `C` and the two inclusions hold (every element of `S` in `C` and every
element of `C` in `S`); equivalently, iff `S` is a genuine set
representation (no duplicate entries) denoting exactly the set `C`. -/
theorem scoring_exact_set_equality (C S : List Nat) (hC : C.Nodup) :
    (isCorrect C S = true ↔
        S.length = C.length ∧ (∀ x ∈ S, x ∈ C) ∧ (∀ x ∈ C, x ∈ S)) ∧
      (isCorrect C S = true ↔ S.Nodup ∧ S.toFinset = C.toFinset) :=
  ⟨isCorrect_iff_incl C S, isCorrect_iff_toFinset C S hC⟩

/-- Witness for C1: the spec's own example `correctSectors = [2,5,9,13]`
accepts the permuted submission `[13,2,9,5]` and rejects `[2,5,9]`. -/
theorem scoring_exact_set_equality_witness :
    isCorrect [2, 5, 9, 13] [13, 2, 9, 5] = true ∧
      isCorrect [2, 5, 9, 13] [2, 5, 9] = false := by
  constructor
  · exact (scoring_exact_set_equality [2, 5, 9, 13] [13, 2, 9, 5]
      (by decide)).2.mpr ⟨by decide, by decide⟩
  · have h := (scoring_exact_set_equality [2, 5, 9, 13] [2, 5, 9]
      (by decide)).1
    cases hb : isCorrect [2, 5, 9, 13] [2, 5, 9] with
    | false => rfl
    | true => simp [hb] at h

/-- **C10.** A submitted list with a duplicated element always scores
`false` against a duplicate-free correct list, even when its set of
distinct elements equals the correct set: the cardinality comparison
counts list length including duplicates. -/
theorem scoring_rejects_duplicates (C S : List Nat) (hC : C.Nodup)
    (hS : ¬ S.Nodup) : isCorrect C S = false := by
  cases hb : isCorrect C S with
  | false => rfl
  | true => exact absurd ((isCorrect_iff_toFinset C S hC).mp hb).1 hS

/-- Witness for C10: `[2,2,5]` denotes the same set as `[2,5]` yet
scores `false`. -/
theorem scoring_rejects_duplicates_witness :
    ([2, 2, 5] : List Nat).toFinset = ([2, 5] : List Nat).toFinset ∧
      isCorrect [2, 5] [2, 2, 5] = false :=
  ⟨by decide, scoring_rejects_duplicates [2, 5] [2, 2, 5] (by decide)
    (by decide)⟩

/-! ## Challenge generation (`handleCameraCapture`, lines 62-83)

`correctSectors.sort()` uses the JavaScript default comparator, which
orders numbers by their decimal string representations. We model that
comparator (`jsLt`) and an insertion sort using it (`sortJS`). -/

/-- Decimal digits of `n`, most significant first, with explicit fuel
(structural recursion so that the kernel can evaluate it). -/
def decDigitsAux : Nat → Nat → List Nat
  | 0, _ => []
  | _ + 1, 0 => []
  | fuel + 1, n + 1 => decDigitsAux fuel ((n + 1) / 10) ++ [(n + 1) % 10]

/-- Decimal digit string of `n` (as a list of digit values). -/
def decDigits (n : Nat) : List Nat :=
  if n = 0 then [0] else decDigitsAux n n

/-- Lexicographic order on digit strings: exactly the order of the
corresponding decimal strings under UTF-16 code-unit comparison. -/
def lexLt : List Nat → List Nat → Bool
  | [], [] => false
  | [], _ :: _ => true
  | _ :: _, [] => false
  | a :: as, b :: bs =>
    if a < b then true else if b < a then false else lexLt as bs

/-- The JavaScript default sort comparator on numbers: ascending by
decimal string representation. -/
def jsLt (a b : Nat) : Bool := lexLt (decDigits a) (decDigits b)

/-- Insertion step for `sortJS`. -/
def insertJS (x : Nat) : List Nat → List Nat
  | [] => [x]
  | y :: ys => if jsLt y x then y :: insertJS x ys else x :: y :: ys

/-- Model of `Array.prototype.sort()` with the default comparator (the
sort the code applies to `correctSectors` at line 82). -/
def sortJS : List Nat → List Nat
  | [] => []
  | x :: xs => insertJS x (sortJS xs)

/-- The rejection-sampling loop of `handleCameraCapture` (lines 72-77):
repeatedly draw a sector from the random stream and push it if not
already present, until `count` distinct sectors are collected. `fuel`
bounds the iterations of the JS `while` loop; `none` models a run that
has not terminated within the fuel. -/
def fillSectors (stream : Nat → Fin 16) (count : Nat) :
    Nat → Nat → List Nat → Option (List Nat)
  | 0, _, acc => if count ≤ acc.length then some acc else none
  | fuel + 1, i, acc =>
    if count ≤ acc.length then some acc
    else
      let s := (stream i).val
      fillSectors stream count fuel (i + 1)
        (if acc.contains s then acc else acc ++ [s])

/-- `shapes[k]` for `shapes = ['triangle', 'square', 'circle']`. -/
def shapeAt : Fin 3 → Shape
  | 0 => Shape.triangle
  | 1 => Shape.square
  | 2 => Shape.circle

/-- `colors[k]` for `colors = ['red', 'green', 'blue']`. -/
def colorAt : Fin 3 → Color
  | 0 => Color.red
  | 1 => Color.green
  | 2 => Color.blue

/-- Challenge generation in `handleCameraCapture` (lines 62-83), the
random source supplied explicitly: `shapeDraw`/`colorDraw` model the two
`Math.floor(Math.random() * 3)` draws, `countDraw` the
`Math.floor(Math.random() * 4)` draw (so `numCorrectSectors = countDraw
+ 2`), and `stream` the successive `Math.floor(Math.random() * 16)`
draws of the sector loop. -/
def generateChallenge (enableColorTint : Bool) (shapeDraw colorDraw : Fin 3)
    (countDraw : Fin 4) (stream : Nat → Fin 16) (fuel : Nat) :
    Option ValidationChallenge :=
  (fillSectors stream (countDraw.val + 2) fuel 0 []).map fun l =>
    { shape := shapeAt shapeDraw
      color := if enableColorTint then some (colorAt colorDraw) else none
      correctSectors := sortJS l }

/-- A random stream that first draws sector 10, then sector 2. -/
def exStream : Nat → Fin 16 := fun i => if i = 0 then 10 else 2

/-- The challenge generated from `exStream` with `countDraw = 0`. -/
def exChallenge : ValidationChallenge :=
  { shape := Shape.triangle, color := none, correctSectors := [10, 2] }

/-- The JS comparator is total on the sector domain. -/
theorem jsLt_total_sector : ∀ a b : Fin 16, a ≠ b →
    jsLt a.val b.val = true ∨ jsLt b.val a.val = true := by decide

/-- The JS comparator is transitive on the sector domain. -/
theorem jsLt_trans_sector : ∀ a b c : Fin 16, jsLt a.val b.val = true →
    jsLt b.val c.val = true → jsLt a.val c.val = true := by decide

/-- Membership in an insertion. -/
theorem mem_insertJS (x a : Nat) (l : List Nat) :
    a ∈ insertJS x l ↔ a = x ∨ a ∈ l := by
  induction l with
  | nil => simp [insertJS]
  | cons y ys ih =>
    by_cases h : jsLt y x = true
    · simp [insertJS, h, ih]
      tauto
    · simp [insertJS, h]

/-- Length of an insertion. -/
theorem length_insertJS (x : Nat) (l : List Nat) :
    (insertJS x l).length = l.length + 1 := by
  induction l with
  | nil => rfl
  | cons y ys ih =>
    by_cases h : jsLt y x = true
    · simp [insertJS, h, ih]
    · simp [insertJS, h]

/-- Membership is preserved by `sortJS`. -/
theorem mem_sortJS (a : Nat) (l : List Nat) : a ∈ sortJS l ↔ a ∈ l := by
  induction l with
  | nil => simp [sortJS]
  | cons x xs ih => simp [sortJS, mem_insertJS, ih]

/-- Length is preserved by `sortJS`. -/
theorem length_sortJS (l : List Nat) : (sortJS l).length = l.length := by
  induction l with
  | nil => rfl
  | cons x xs ih => simp [sortJS, length_insertJS, ih]

/-- Insertion preserves freedom from duplicates. -/
theorem nodup_insertJS (x : Nat) (l : List Nat) (hx : x ∉ l)
    (hl : l.Nodup) : (insertJS x l).Nodup := by
  induction l with
  | nil => simp [insertJS]
  | cons y ys ih =>
    rw [List.nodup_cons] at hl
    by_cases h : jsLt y x = true
    · simp only [insertJS, h, if_pos]
      rw [List.nodup_cons, mem_insertJS]
      refine ⟨?_, ih (fun hm => hx (List.mem_cons_of_mem y hm)) hl.2⟩
      rintro (rfl | hm)
      · exact hx (List.mem_cons_self y ys)
      · exact hl.1 hm
    · simp only [insertJS, h, if_neg, Bool.not_eq_true]
      rw [List.nodup_cons]
      exact ⟨hx, List.nodup_cons.mpr hl⟩

/-- `sortJS` preserves freedom from duplicates. -/
theorem nodup_sortJS (l : List Nat) (hl : l.Nodup) : (sortJS l).Nodup := by
  induction l with
  | nil => simp [sortJS]
  | cons x xs ih =>
    rw [List.nodup_cons] at hl
    exact nodup_insertJS x (sortJS xs) (fun hm => hl.1 ((mem_sortJS x xs).mp hm))
      (ih hl.2)

/-- Inserting a fresh sector below 16 into a strictly JS-sorted list of
sectors below 16 keeps it strictly JS-sorted. -/
theorem pairwise_insertJS (x : Nat) (l : List Nat) (hx : x < 16)
    (hl16 : ∀ y ∈ l, y < 16) (hxl : x ∉ l)
    (h : List.Pairwise (fun a b => jsLt a b = true) l) :
    List.Pairwise (fun a b => jsLt a b = true) (insertJS x l) := by
  induction l with
  | nil => simp [insertJS]
  | cons y ys ih =>
    rw [List.pairwise_cons] at h
    have hy : y < 16 := hl16 y (List.mem_cons_self y ys)
    by_cases hyx : jsLt y x = true
    · simp only [insertJS, hyx, if_pos]
      rw [List.pairwise_cons]
      constructor
      · intro z hz
        rcases (mem_insertJS x z ys).mp hz with rfl | hm
        · exact hyx
        · exact h.1 z hm
      · exact ih (fun z hz => hl16 z (List.mem_cons_of_mem y hz))
          (fun hm => hxl (List.mem_cons_of_mem y hm)) h.2
    · simp only [insertJS, hyx, if_neg, Bool.not_eq_true]
      have hxy : jsLt x y = true := by
        have hne : x ≠ y := fun he => hxl (he ▸ List.mem_cons_self y ys)
        have hne16 : (⟨x, hx⟩ : Fin 16) ≠ ⟨y, hy⟩ :=
          fun he => hne (congrArg Fin.val he)
        rcases jsLt_total_sector ⟨x, hx⟩ ⟨y, hy⟩ hne16 with h1 | h2
        · exact h1
        · exact absurd h2 hyx
      rw [List.pairwise_cons]
      constructor
      · intro z hz
        rcases List.mem_cons.mp hz with rfl | hm
        · exact hxy
        · exact jsLt_trans_sector ⟨x, hx⟩ ⟨y, hy⟩ ⟨z, hl16 z (List.mem_cons_of_mem y hm)⟩
            hxy (h.1 z hm)
      · rw [List.pairwise_cons]
        exact h

/-- `sortJS` sorts a duplicate-free list of sectors below 16 strictly
ascending with respect to the JS string comparator. -/
theorem pairwise_sortJS (l : List Nat) (hl16 : ∀ y ∈ l, y < 16)
    (hl : l.Nodup) :
    List.Pairwise (fun a b => jsLt a b = true) (sortJS l) := by
  induction l with
  | nil => simp [sortJS]
  | cons x xs ih =>
    rw [List.nodup_cons] at hl
    exact pairwise_insertJS x (sortJS xs) (hl16 x (List.mem_cons_self x xs))
      (fun y hy => hl16 y (List.mem_cons_of_mem x ((mem_sortJS y xs).mp hy)))
      (fun hm => hl.1 ((mem_sortJS x xs).mp hm))
      (ih (fun y hy => hl16 y (List.mem_cons_of_mem x hy)) hl.2)

/-- Invariant of the rejection-sampling loop: starting from a
duplicate-free accumulator of in-range sectors not yet at the target
count, a completed run returns a duplicate-free list of in-range sectors
of exactly the target count. -/
theorem fillSectors_spec (stream : Nat → Fin 16) (count : Nat) :
    ∀ (fuel i : Nat) (acc l : List Nat),
      fillSectors stream count fuel i acc = some l →
      acc.length ≤ count → acc.Nodup → (∀ x ∈ acc, x < 16) →
      l.length = count ∧ l.Nodup ∧ ∀ x ∈ l, x < 16 := by
  intro fuel
  induction fuel with
  | zero =>
    intro i acc l h hlen hnd h16
    simp only [fillSectors] at h
    by_cases hc : count ≤ acc.length
    · rw [if_pos hc] at h
      cases h
      exact ⟨le_antisymm hlen hc, hnd, h16⟩
    · rw [if_neg hc] at h
      cases h
  | succ fuel ih =>
    intro i acc l h hlen hnd h16
    simp only [fillSectors] at h
    by_cases hc : count ≤ acc.length
    · rw [if_pos hc] at h
      cases h
      exact ⟨le_antisymm hlen hc, hnd, h16⟩
    · rw [if_neg hc] at h
      by_cases hmem : acc.contains (stream i).val
      · rw [if_pos hmem] at h
        exact ih (i + 1) acc l h hlen hnd h16
      · rw [if_neg hmem] at h
        refine ih (i + 1) (acc ++ [(stream i).val]) l h ?_ ?_ ?_
        · rw [List.length_append, List.length_singleton]
          omega
        · rw [List.nodup_append]
          refine ⟨hnd, List.nodup_singleton _, ?_⟩
          intro a ha hb
          rw [List.mem_singleton] at hb
          subst hb
          exact hmem (by simpa using ha)
        · intro x hx
          rcases List.mem_append.mp hx with hx | hx
          · exact h16 x hx
          · rw [List.mem_singleton] at hx
            subst hx
            exact (stream i).isLt

/-- Counterexample: with a random source drawing sector 10 and then
sector 2, generation produces `correctSectors = [10, 2]`, which is not
sorted in ascending numeric order (the JS default sort compares decimal
strings, and the string of 10 precedes the string of 2). -/
theorem generation_not_numerically_sorted :
    generateChallenge false 0 0 0 exStream 100 = some exChallenge ∧
      exChallenge.correctSectors = [10, 2] ∧
      ¬ List.Pairwise (fun a b : Nat => a ≤ b) exChallenge.correctSectors := by
  refine ⟨rfl, rfl, ?_⟩
  decide

/-- **C3 (amended).** Every challenge produced by the generation step in
`handleCameraCapture`, for any random source, has between 2 and 5
correct sectors, all unique, all in `[0, 16)`, and sorted strictly
ascending by the JS default comparator (lexicographic on decimal string
representations) — which is not always ascending numeric order. -/
theorem generation_invariants (ect : Bool) (sd cd : Fin 3) (cdraw : Fin 4)
    (stream : Nat → Fin 16) (fuel : Nat) (ch : ValidationChallenge)
    (h : generateChallenge ect sd cd cdraw stream fuel = some ch) :
    2 ≤ ch.correctSectors.length ∧ ch.correctSectors.length ≤ 5 ∧
      ch.correctSectors.Nodup ∧ (∀ x ∈ ch.correctSectors, x < 16) ∧
      List.Pairwise (fun a b => jsLt a b = true) ch.correctSectors := by
  simp only [generateChallenge, Option.map_eq_some'] at h
  obtain ⟨l, hl, rfl⟩ := h
  obtain ⟨hlen, hnd, h16⟩ := fillSectors_spec stream (cdraw.val + 2)
    fuel 0 [] l hl (by simp) List.nodup_nil (by simp)
  simp only [length_sortJS]
  have h16s : ∀ x ∈ sortJS l, x < 16 := fun x hx => h16 x ((mem_sortJS x l).mp hx)
  refine ⟨by omega, by have := cdraw.isLt; omega, nodup_sortJS l hnd, h16s, ?_⟩
  exact pairwise_sortJS l h16 hnd

/-- Witness for the amended C3, at the concrete run of
`generation_not_numerically_sorted`. -/
theorem generation_invariants_witness :
    2 ≤ exChallenge.correctSectors.length ∧
      exChallenge.correctSectors.length ≤ 5 ∧
      exChallenge.correctSectors.Nodup ∧
      (∀ x ∈ exChallenge.correctSectors, x < 16) ∧
      List.Pairwise (fun a b => jsLt a b = true) exChallenge.correctSectors :=
  generation_invariants false 0 0 0 exStream 100 exChallenge rfl

/-! ## Watermark planning (`ShapeValidation.tsx`, lines 37-66) -/

/-- `WatermarkData` from `ShapeValidation.tsx`. -/
structure WatermarkData where
  sector : Nat
  shape : Shape
  color : Color
  hasWatermark : Bool
deriving DecidableEq, Repr

/-- The generation loop of `watermarkData` (lines 43-52): one entry per
sector 0..15, with randomly drawn shape and colour, and a watermark when
the sector is correct or its independent noise draw is below 0.3.
`noise i` models `Math.random() < 0.3` at sector `i`; `sd i` and `cd i`
model the shape and colour draws for sector `i`. -/
def watermarkBase (ch : ValidationChallenge) (noise : Nat → Bool)
    (sd cd : Nat → Fin 3) : List WatermarkData :=
  (List.range 16).map fun i =>
    { sector := i
      shape := shapeAt (sd i)
      color := colorAt (cd i)
      hasWatermark := ch.correctSectors.contains i || noise i }

/-- The entry written by the overwrite pass (lines 55-62) for a correct
sector: challenge shape, challenge colour (`challenge.color || 'red'`),
watermark present. -/
def correctEntry (ch : ValidationChallenge) (idx : Nat) : WatermarkData :=
  { sector := idx
    shape := ch.shape
    color := ch.color.getD Color.red
    hasWatermark := true }

/-- The full watermark plan of `ShapeValidation` (lines 37-66): the
generation loop followed by the per-correct-sector overwrite
(`data[sectorIndex] = {...}` modelled by `List.set`). -/
def watermarkData (ch : ValidationChallenge) (noise : Nat → Bool)
    (sd cd : Nat → Fin 3) : List WatermarkData :=
  ch.correctSectors.foldl (fun d idx => d.set idx (correctEntry ch idx))
    (watermarkBase ch noise sd cd)

/-- The default entry used to read a plan positionally. -/
def wmDefault : WatermarkData :=
  { sector := 0, shape := Shape.triangle, color := Color.red,
    hasWatermark := false }

/-- Positional lookup in the generated base list. -/
theorem watermarkBase_getElem? (ch : ValidationChallenge)
    (noise : Nat → Bool) (sd cd : Nat → Fin 3) (i : Nat) (hi : i < 16) :
    (watermarkBase ch noise sd cd)[i]? =
      some { sector := i, shape := shapeAt (sd i), color := colorAt (cd i),
             hasWatermark := ch.correctSectors.contains i || noise i } := by
  simp [watermarkBase, List.getElem?_map, List.getElem?_range, hi]

/-- Length of the generated base list. -/
theorem watermarkBase_length (ch : ValidationChallenge)
    (noise : Nat → Bool) (sd cd : Nat → Fin 3) :
    (watermarkBase ch noise sd cd).length = 16 := by
  simp [watermarkBase]

/-- The overwrite fold preserves length. -/
theorem foldl_set_length (L : List Nat) (f : Nat → WatermarkData) :
    ∀ d : List WatermarkData,
      (L.foldl (fun d idx => d.set idx (f idx)) d).length = d.length := by
  induction L with
  | nil => intro d; rfl
  | cons a L ih =>
    intro d
    rw [List.foldl_cons, ih, List.length_set]

/-- Positional lookup after the overwrite fold: an index in the
overwrite list reads the overwritten entry, any other index reads the
original. -/
theorem foldl_set_getElem? (f : Nat → WatermarkData) (L : List Nat) :
    ∀ (d : List WatermarkData) (j : Nat), (∀ i ∈ L, i < d.length) →
      (L.foldl (fun d idx => d.set idx (f idx)) d)[j]? =
        if j ∈ L then some (f j) else d[j]? := by
  induction L with
  | nil => intro d j _; simp
  | cons a L ih =>
    intro d j hlt
    rw [List.foldl_cons]
    rw [ih (d.set a (f a)) j (by
      intro i hi
      rw [List.length_set]
      exact hlt i (List.mem_cons_of_mem a hi))]
    by_cases hjL : j ∈ L
    · simp [hjL, List.mem_cons_of_mem a hjL]
    · by_cases hja : j = a
      · subst hja
        have hjlen : j < d.length := hlt j (List.mem_cons_self j L)
        simp [hjL, List.getElem?_set_self, hjlen, List.mem_cons]
      · have : j ∉ (a :: L) := by
          intro hc
          rcases List.mem_cons.mp hc with h | h
          · exact hja h
          · exact hjL h
        simp [hjL, this, List.getElem?_set_ne (fun h => hja h.symm)]

/-- **C6.** For every challenge with in-range correct sectors and every
random source, the watermark plan of `ShapeValidation` has exactly 16
entries, entry `i` carries sector index `i`; every correct sector's
entry is forced to `hasWatermark = true` with the challenge shape and
the challenge colour (default red when colour mode is off); and every
other sector's entry keeps its independent draws: watermark present
exactly when its noise draw is below 0.3, shape and colour taken from
the per-sector draws over the 3-element domains. -/
theorem watermark_plan_spec (ch : ValidationChallenge) (noise : Nat → Bool)
    (sd cd : Nat → Fin 3) (h16 : ∀ i ∈ ch.correctSectors, i < 16) :
    (watermarkData ch noise sd cd).length = 16 ∧
      (∀ i, i < 16 →
        ((watermarkData ch noise sd cd).getD i wmDefault).sector = i) ∧
      (∀ i ∈ ch.correctSectors,
        (watermarkData ch noise sd cd).getD i wmDefault = correctEntry ch i) ∧
      (∀ i, i < 16 → i ∉ ch.correctSectors →
        (watermarkData ch noise sd cd).getD i wmDefault =
          { sector := i, shape := shapeAt (sd i), color := colorAt (cd i),
            hasWatermark := noise i }) := by
  have hlen : (watermarkData ch noise sd cd).length = 16 := by
    rw [watermarkData, foldl_set_length, watermarkBase_length]
  have hbase : ∀ i ∈ ch.correctSectors,
      i < (watermarkBase ch noise sd cd).length := by
    intro i hi
    rw [watermarkBase_length]
    exact h16 i hi
  have hget : ∀ j : Nat, (watermarkData ch noise sd cd)[j]? =
      if j ∈ ch.correctSectors then some (correctEntry ch j)
      else (watermarkBase ch noise sd cd)[j]? := by
    intro j
    exact foldl_set_getElem? (correctEntry ch) ch.correctSectors
      (watermarkBase ch noise sd cd) j hbase
  refine ⟨hlen, ?_, ?_, ?_⟩
  · intro i hi
    rw [List.getD_eq_getElem?_getD, hget i]
    by_cases hc : i ∈ ch.correctSectors
    · simp [hc, correctEntry]
    · simp [hc, watermarkBase_getElem? ch noise sd cd i hi]
  · intro i hi
    rw [List.getD_eq_getElem?_getD, hget i]
    simp [hi]
  · intro i hi hc
    rw [List.getD_eq_getElem?_getD, hget i]
    have hcontains : ch.correctSectors.contains i = false := by
      simpa using hc
    simp [hc, watermarkBase_getElem? ch noise sd cd i hi, hcontains]

/-- A concrete challenge for the watermark witness. -/
def chSquare : ValidationChallenge :=
  { shape := Shape.square, color := none, correctSectors := [2, 5] }

/-- Witness for C6: the concrete challenge `chSquare` with all noise
draws false and all shape/colour draws at index 0. -/
theorem watermark_plan_spec_witness :
    (watermarkData chSquare (fun _ => false) (fun _ => 0)
        (fun _ => 0)).getD 2 wmDefault = correctEntry chSquare 2 ∧
      (watermarkData chSquare (fun _ => false) (fun _ => 0)
        (fun _ => 0)).getD 0 wmDefault = wmDefault := by
  have h := watermark_plan_spec chSquare
    (fun _ => false) (fun _ => 0) (fun _ => 0) (by decide)
  refine ⟨h.2.2.1 2 (by decide), ?_⟩
  have h0 := h.2.2.2 0 (by decide) (by decide)
  rw [h0]
  rfl

/-! ## The session state machine (`CaptchaValidator.tsx`) -/

/-- `CaptchaStep` from `CaptchaValidator.tsx`. -/
inductive CaptchaStep where
  | camera
  | validation
  | result
deriving DecidableEq, Repr

/-- The React state of `CaptchaValidator` (lines 40-51): current step,
captured data, current challenge, validation result and attempt
tracking. -/
structure CaptchaState where
  currentStep : CaptchaStep
  capturedData : Option CapturedData
  challenge : Option ValidationChallenge
  validationSuccess : Bool
  attemptCount : Nat
  isBlocked : Bool
deriving DecidableEq, Repr

/-- The initial state (the `useState` initialisers). -/
def initialState : CaptchaState :=
  { currentStep := CaptchaStep.camera
    capturedData := none
    challenge := none
    validationSuccess := false
    attemptCount := 0
    isBlocked := false }

/-- `handleCameraCapture` (lines 57-88): store the captured data and the
freshly generated challenge and move to the validation step. The
generated challenge is a parameter here; its construction from the
random source is `generateChallenge`. -/
def handleCameraCapture (s : CaptchaState) (data : CapturedData)
    (ch : ValidationChallenge) : CaptchaState :=
  { s with capturedData := some data
           challenge := some ch
           currentStep := CaptchaStep.validation }

/-- `handleValidationComplete` (lines 94-124): no-op without an active
challenge; otherwise increment the attempt count, score the selection,
and either succeed, block, or leave a retry open. The returned list
holds the `onComplete` invocations the call performs. -/
def handleValidationComplete (maxAttempts : Nat) (s : CaptchaState)
    (selectedSectors : List Nat) : CaptchaState × List (Bool × Nat) :=
  match s.challenge with
  | none => (s, [])
  | some ch =>
    let newAttemptCount := s.attemptCount + 1
    let ok := isCorrect ch.correctSectors selectedSectors
    if ok then
      ({ s with attemptCount := newAttemptCount
                validationSuccess := ok
                currentStep := CaptchaStep.result },
        [(true, newAttemptCount)])
    else if maxAttempts ≤ newAttemptCount then
      ({ s with attemptCount := newAttemptCount
                validationSuccess := ok
                isBlocked := true
                currentStep := CaptchaStep.result },
        [(false, newAttemptCount)])
    else
      ({ s with attemptCount := newAttemptCount
                validationSuccess := ok
                currentStep := CaptchaStep.result },
        [])

/-- `handleRetry` (lines 130-136): back to the camera step, captured
data, challenge and success flag cleared; the attempt count and the
blocked flag are untouched. -/
def handleRetry (s : CaptchaState) : CaptchaState :=
  { s with currentStep := CaptchaStep.camera
           capturedData := none
           challenge := none
           validationSuccess := false }

/-- `toleranceLevel` passed to `ShapeValidation` (line 162):
`Math.max(1, maxAttempts - attemptCount)` over JS numbers (the
subtraction can go negative, hence the integer codomain). -/
def toleranceLevel (maxAttempts attemptCount : Nat) : Int :=
  max 1 ((maxAttempts : Int) - (attemptCount : Int))

/-- `canRetry` passed to `ValidationResult` (line 173):
`!isBlocked && !validationSuccess && attemptCount < maxAttempts`. -/
def canRetry (maxAttempts : Nat) (s : CaptchaState) : Bool :=
  !s.isBlocked && !s.validationSuccess
    && decide (s.attemptCount < maxAttempts)

/-- The session phases of the specification. -/
inductive Phase where
  | awaitingCapture
  | awaitingSelection
  | success
  | retryAvailable
  | blocked
deriving DecidableEq, Repr

/-- The phase the component presents: the `camera` and `validation`
steps render capture and selection; the `result` step renders success,
blocked or retry following `ValidationResult`'s precedence (`success`
checked first, then `isBlocked`). -/
def phase (s : CaptchaState) : Phase :=
  match s.currentStep with
  | CaptchaStep.camera => Phase.awaitingCapture
  | CaptchaStep.validation => Phase.awaitingSelection
  | CaptchaStep.result =>
    if s.validationSuccess then Phase.success
    else if s.isBlocked then Phase.blocked
    else Phase.retryAvailable

/-- External events of a session. -/
inductive Event where
  | capture (data : CapturedData) (ch : ValidationChallenge)
  | submit (selectedSectors : List Nat)
  | retry

/-- Which events the rendered component exposes in a state:
`CameraCapture` is mounted only in the `camera` step (line 153),
`ShapeValidation` only in the `validation` step with captured data and a
challenge present (line 157), and the retry button only in the `result`
step when `canRetry` holds (lines 166-174). -/
def enabled (maxAttempts : Nat) (s : CaptchaState) : Event → Bool
  | Event.capture _ _ => decide (s.currentStep = CaptchaStep.camera)
  | Event.submit _ =>
    decide (s.currentStep = CaptchaStep.validation)
      && s.capturedData.isSome && s.challenge.isSome
  | Event.retry =>
    decide (s.currentStep = CaptchaStep.result) && canRetry maxAttempts s

/-- One step of the session: the handler the event invokes, paired with
the `onComplete` invocations it performs. -/
def step (maxAttempts : Nat) (s : CaptchaState) :
    Event → CaptchaState × List (Bool × Nat)
  | Event.capture d ch => (handleCameraCapture s d ch, [])
  | Event.submit sel => handleValidationComplete maxAttempts s sel
  | Event.retry => (handleRetry s, [])

/-- Run a list of events from a state: final state, the collected
`onComplete` invocations, and whether every event was enabled when it
fired. -/
def runList (maxAttempts : Nat) :
    CaptchaState → List Event → CaptchaState × List (Bool × Nat) × Bool
  | s, [] => (s, [], true)
  | s, e :: es =>
    let en := enabled maxAttempts s e
    let p := step maxAttempts s e
    let r := runList maxAttempts p.1 es
    (r.1, p.2 ++ r.2.1, en && r.2.2)

/-- States reachable from the initial state along enabled events. -/
inductive Reachable (maxAttempts : Nat) : CaptchaState → Prop where
  | init : Reachable maxAttempts initialState
  | next (s : CaptchaState) (e : Event) :
      Reachable maxAttempts s → enabled maxAttempts s e = true →
      Reachable maxAttempts (step maxAttempts s e).1

/-- The inductive session invariant: a blocked session sits in the
result step with the success flag down. -/
def Inv (s : CaptchaState) : Prop :=
  s.isBlocked = true →
    s.currentStep = CaptchaStep.result ∧ s.validationSuccess = false

/-- The eight events of three failed cycles. -/
def threeFailures (d1 d2 d3 : CapturedData)
    (ch1 ch2 ch3 : ValidationChallenge)
    (sel1 sel2 sel3 : List Nat) : List Event :=
  [Event.capture d1 ch1, Event.submit sel1, Event.retry,
   Event.capture d2 ch2, Event.submit sel2, Event.retry,
   Event.capture d3 ch3, Event.submit sel3]

/-- A concrete captured frame for witnesses. -/
def exCaptured : CapturedData :=
  { imageData := "", squarePosition := { x := 0, y := 0, size := 0 } }

/-- The success flag written by a submission is the scoring result (or
the old flag when no challenge is active), independent of the attempt
limit. -/
theorem handleValidationComplete_validationSuccess (maxAttempts : Nat)
    (s : CaptchaState) (sel : List Nat) :
    (handleValidationComplete maxAttempts s sel).1.validationSuccess =
      match s.challenge with
      | none => s.validationSuccess
      | some ch => isCorrect ch.correctSectors sel := by
  cases hch : s.challenge with
  | none => simp [handleValidationComplete, hch]
  | some ch =>
    simp only [handleValidationComplete, hch]
    cases hok : isCorrect ch.correctSectors sel
    · by_cases hm : maxAttempts ≤ s.attemptCount + 1 <;> simp [hok, hm]
    · simp [hok]

/-- An enabled event can only fire outside the terminal phases. -/
theorem enabled_phase_not_terminal (maxAttempts : Nat) (s : CaptchaState)
    (e : Event) (h : enabled maxAttempts s e = true) :
    phase s ≠ Phase.success ∧ phase s ≠ Phase.blocked := by
  cases e with
  | capture d ch =>
    simp only [enabled, decide_eq_true_eq] at h
    simp [phase, h]
  | submit sel =>
    simp only [enabled, Bool.and_eq_true, decide_eq_true_eq] at h
    simp [phase, h.1.1]
  | retry =>
    simp only [enabled, canRetry, Bool.and_eq_true, Bool.not_eq_true',
      decide_eq_true_eq] at h
    obtain ⟨hres, ⟨hb, hv⟩, _⟩ := h
    simp [phase, hres, hb, hv]

/-- In the terminal phases no event is enabled: the component mounts
neither the capture view, nor the selection view, nor a usable retry
button. -/
theorem terminal_phase_no_event (maxAttempts : Nat) (s : CaptchaState)
    (hterm : phase s = Phase.success ∨ phase s = Phase.blocked)
    (e : Event) : enabled maxAttempts s e = false := by
  by_contra h
  rw [Bool.not_eq_false] at h
  rcases enabled_phase_not_terminal maxAttempts s e h with ⟨h1, h2⟩
  rcases hterm with ht | ht
  · exact h1 ht
  · exact h2 ht

/-- The initial state satisfies the session invariant. -/
theorem inv_initial : Inv initialState := by
  intro h
  simp [initialState] at h

/-- Under the invariant, a state outside the result step is not
blocked. -/
theorem inv_not_result (s : CaptchaState) (hInv : Inv s)
    (hv : s.currentStep ≠ CaptchaStep.result) : s.isBlocked = false := by
  cases hbv : s.isBlocked
  · rfl
  · exact absurd (hInv hbv).1 hv

/-- The session invariant is preserved by every enabled step. -/
theorem inv_step (maxAttempts : Nat) (s : CaptchaState) (e : Event)
    (hInv : Inv s) (hen : enabled maxAttempts s e = true) :
    Inv (step maxAttempts s e).1 := by
  cases e with
  | capture d ch =>
    simp only [enabled, decide_eq_true_eq] at hen
    intro hb
    simp only [step, handleCameraCapture] at hb ⊢
    rcases hInv hb with ⟨hres, _⟩
    simp [hen] at hres
  | submit sel =>
    simp only [enabled, Bool.and_eq_true, decide_eq_true_eq] at hen
    have hb : s.isBlocked = false :=
      inv_not_result s hInv (by simp [hen.1.1])
    cases hch : s.challenge with
    | none => simpa [step, handleValidationComplete, hch] using hInv
    | some ch =>
      intro hbnew
      simp only [step, handleValidationComplete, hch] at hbnew ⊢
      cases hok : isCorrect ch.correctSectors sel
      · by_cases hm : maxAttempts ≤ s.attemptCount + 1
        · simp [hok, hm] at hbnew ⊢
        · simp [hok, hm, hb] at hbnew
      · simp [hok, hb] at hbnew
  | retry =>
    simp only [enabled, canRetry, Bool.and_eq_true, Bool.not_eq_true',
      decide_eq_true_eq] at hen
    intro hbnew
    simp only [step, handleRetry] at hbnew
    rw [hen.2.1.1] at hbnew
    cases hbnew

/-- Every reachable state satisfies the session invariant. -/
theorem reachable_inv (maxAttempts : Nat) (s : CaptchaState)
    (h : Reachable maxAttempts s) : Inv s := by
  induction h with
  | init => exact inv_initial
  | next s e _ hen ih => exact inv_step maxAttempts s e ih hen

/-- An enabled step emits an `onComplete` invocation exactly when it
lands in a terminal phase, and emits at most one. -/
theorem step_out_spec (maxAttempts : Nat) (s : CaptchaState) (e : Event)
    (hInv : Inv s) (hen : enabled maxAttempts s e = true) :
    (step maxAttempts s e).2.length ≤ 1 ∧
      ((step maxAttempts s e).2 ≠ [] ↔
        (phase (step maxAttempts s e).1 = Phase.success ∨
          phase (step maxAttempts s e).1 = Phase.blocked)) := by
  cases e with
  | capture d ch => simp [step, handleCameraCapture, phase]
  | submit sel =>
    simp only [enabled, Bool.and_eq_true, decide_eq_true_eq] at hen
    have hb : s.isBlocked = false :=
      inv_not_result s hInv (by simp [hen.1.1])
    cases hch : s.challenge with
    | none => simp [hch] at hen
    | some ch =>
      simp only [step, handleValidationComplete, hch]
      cases hok : isCorrect ch.correctSectors sel
      · by_cases hm : maxAttempts ≤ s.attemptCount + 1
        · simp [hok, hm, phase]
        · simp [hok, hm, phase, hb]
      · simp [hok, phase]
  | retry => simp [step, handleRetry, phase]

/-- Over a fully enabled run from a non-terminal invariant state, at
most one `onComplete` invocation is collected, and one is collected
exactly when the run ends in a terminal phase. -/
theorem runList_out (maxAttempts : Nat) :
    ∀ (es : List Event) (s : CaptchaState), Inv s →
      phase s ≠ Phase.success → phase s ≠ Phase.blocked →
      (runList maxAttempts s es).2.2 = true →
      (runList maxAttempts s es).2.1.length ≤ 1 ∧
        ((runList maxAttempts s es).2.1 ≠ [] ↔
          (phase (runList maxAttempts s es).1 = Phase.success ∨
            phase (runList maxAttempts s es).1 = Phase.blocked)) := by
  intro es
  induction es with
  | nil =>
    intro s _ hs hb _
    refine ⟨by simp [runList], ?_⟩
    simp only [runList, ne_eq, not_true_eq_false, false_iff]
    rintro (h | h)
    · exact hs h
    · exact hb h
  | cons e es ih =>
    intro s hInv hs hb hall
    simp only [runList, Bool.and_eq_true] at hall
    obtain ⟨hen, hrest⟩ := hall
    have hInv' : Inv (step maxAttempts s e).1 :=
      inv_step maxAttempts s e hInv hen
    obtain ⟨hlen1, hiff⟩ := step_out_spec maxAttempts s e hInv hen
    by_cases hterm : phase (step maxAttempts s e).1 = Phase.success ∨
        phase (step maxAttempts s e).1 = Phase.blocked
    · have hes : es = [] := by
        cases es with
        | nil => rfl
        | cons f fs =>
          exfalso
          simp only [runList, Bool.and_eq_true] at hrest
          have hdis := terminal_phase_no_event maxAttempts _ hterm f
          rw [hdis] at hrest
          exact Bool.noConfusion hrest.1
      subst hes
      simp only [runList, List.append_nil]
      exact ⟨hlen1, by rw [hiff]⟩
    · have hout : (step maxAttempts s e).2 = [] := by
        by_contra hne
        exact hterm (hiff.mp hne)
      push_neg at hterm
      obtain ⟨hres1, hres2⟩ :=
        ih (step maxAttempts s e).1 hInv' hterm.1 hterm.2 hrest
      simp only [runList, hout, List.nil_append]
      exact ⟨hres1, hres2⟩

/-- **C9.** In every reachable state the success and blocked flags are
never simultaneously set, and from a terminal phase (success or
blocked) no event is enabled, so neither terminal phase can follow the
other in one session. -/
theorem success_blocked_mutually_exclusive (maxAttempts : Nat)
    (s : CaptchaState) (h : Reachable maxAttempts s) :
    ¬(s.validationSuccess = true ∧ s.isBlocked = true) ∧
      ((phase s = Phase.success ∨ phase s = Phase.blocked) →
        ∀ e, enabled maxAttempts s e = false) := by
  refine ⟨?_, fun hterm e => terminal_phase_no_event maxAttempts s hterm e⟩
  rintro ⟨hv, hb⟩
  obtain ⟨_, hvf⟩ := reachable_inv maxAttempts s h hb
  simp [hv] at hvf

/-- Witness for C9 at the initial state. -/
theorem success_blocked_mutually_exclusive_witness :
    ¬(initialState.validationSuccess = true ∧
        initialState.isBlocked = true) ∧
      ((phase initialState = Phase.success ∨
          phase initialState = Phase.blocked) →
        ∀ e, enabled 3 initialState e = false) :=
  success_blocked_mutually_exclusive 3 initialState Reachable.init

/-- **C4.** Over every fully enabled event sequence the `onComplete`
callback fires at most once, and fires exactly when the session has
entered the success or blocked phase; in particular a correct
submission on attempt 1 of a `maxAttempts = 3` session enters the
success phase, fires `onComplete(true, 1)`, and leaves no event
enabled. -/
theorem onComplete_exactly_once :
    (∀ (maxAttempts : Nat) (es : List Event),
        (runList maxAttempts initialState es).2.2 = true →
        (runList maxAttempts initialState es).2.1.length ≤ 1 ∧
          ((runList maxAttempts initialState es).2.1 ≠ [] ↔
            (phase (runList maxAttempts initialState es).1 = Phase.success ∨
              phase (runList maxAttempts initialState es).1 =
                Phase.blocked))) ∧
      (∀ (maxAttempts : Nat) (s : CaptchaState) (e : Event), Inv s →
        enabled maxAttempts s e = true →
        ((step maxAttempts s e).2 ≠ [] ↔
          (phase (step maxAttempts s e).1 = Phase.success ∨
            phase (step maxAttempts s e).1 = Phase.blocked))) ∧
      ∀ (d : CapturedData) (ch : ValidationChallenge) (sel : List Nat),
        isCorrect ch.correctSectors sel = true →
        (runList 3 initialState
            [Event.capture d ch, Event.submit sel]).2.2 = true ∧
          (runList 3 initialState
            [Event.capture d ch, Event.submit sel]).2.1 = [(true, 1)] ∧
          phase (runList 3 initialState
            [Event.capture d ch, Event.submit sel]).1 = Phase.success ∧
          ∀ e, enabled 3 (runList 3 initialState
            [Event.capture d ch, Event.submit sel]).1 e = false := by
  refine ⟨?_, ?_, ?_⟩
  · intro maxAttempts es hall
    exact runList_out maxAttempts es initialState inv_initial
      (by simp [initialState, phase]) (by simp [initialState, phase]) hall
  · intro maxAttempts s e hInv hen
    exact (step_out_spec maxAttempts s e hInv hen).2
  · intro d ch sel hok
    refine ⟨?_, ?_, ?_, ?_⟩
    · simp [runList, step, enabled, handleCameraCapture,
        handleValidationComplete, initialState, hok, canRetry]
    · simp [runList, step, enabled, handleCameraCapture,
        handleValidationComplete, initialState, hok]
    · simp [runList, step, enabled, handleCameraCapture,
        handleValidationComplete, initialState, hok, phase]
    · intro e
      cases e <;>
        simp [runList, step, enabled, handleCameraCapture,
          handleValidationComplete, initialState, hok, canRetry]

/-- Witness for C4: the empty run and a concrete correct first
submission. -/
theorem onComplete_exactly_once_witness :
    (runList 3 initialState []).2.1.length ≤ 1 ∧
      ((step 3 initialState (Event.capture exCaptured chSquare)).2 ≠ [] ↔
        (phase (step 3 initialState
            (Event.capture exCaptured chSquare)).1 = Phase.success ∨
          phase (step 3 initialState
            (Event.capture exCaptured chSquare)).1 = Phase.blocked)) ∧
      (runList 3 initialState
          [Event.capture exCaptured chSquare, Event.submit [2, 5]]).2.1 =
        [(true, 1)] ∧
      phase (runList 3 initialState
          [Event.capture exCaptured chSquare, Event.submit [2, 5]]).1 =
        Phase.success :=
  ⟨(onComplete_exactly_once.1 3 [] rfl).1,
    onComplete_exactly_once.2.1 3 initialState
      (Event.capture exCaptured chSquare) inv_initial (by decide),
    (onComplete_exactly_once.2.2 exCaptured chSquare [2, 5] (by decide)).2.1,
    (onComplete_exactly_once.2.2 exCaptured chSquare [2, 5] (by decide)).2.2.1⟩

/-- **C2.** With `maxAttempts = 3`, three failed cycles (capture,
incorrect submission, retry between them) form a fully enabled run with
phases retry-available, retry-available, blocked after the three
submissions, no `onComplete` invocation before the third submission,
and exactly the invocation `(false, 3)` over the whole run. -/
theorem blocking_boundary (d1 d2 d3 : CapturedData)
    (ch1 ch2 ch3 : ValidationChallenge) (sel1 sel2 sel3 : List Nat)
    (h1 : isCorrect ch1.correctSectors sel1 = false)
    (h2 : isCorrect ch2.correctSectors sel2 = false)
    (h3 : isCorrect ch3.correctSectors sel3 = false) :
    (runList 3 initialState
        (threeFailures d1 d2 d3 ch1 ch2 ch3 sel1 sel2 sel3)).2.2 = true ∧
      phase (runList 3 initialState
        ((threeFailures d1 d2 d3 ch1 ch2 ch3 sel1 sel2 sel3).take 2)).1 =
        Phase.retryAvailable ∧
      phase (runList 3 initialState
        ((threeFailures d1 d2 d3 ch1 ch2 ch3 sel1 sel2 sel3).take 5)).1 =
        Phase.retryAvailable ∧
      phase (runList 3 initialState
        (threeFailures d1 d2 d3 ch1 ch2 ch3 sel1 sel2 sel3)).1 =
        Phase.blocked ∧
      (runList 3 initialState
        ((threeFailures d1 d2 d3 ch1 ch2 ch3 sel1 sel2 sel3).take 7)).2.1 =
        [] ∧
      (runList 3 initialState
        (threeFailures d1 d2 d3 ch1 ch2 ch3 sel1 sel2 sel3)).2.1 =
        [(false, 3)] := by
  refine ⟨?_, ?_, ?_, ?_, ?_, ?_⟩ <;>
    simp [threeFailures, runList, step, enabled, canRetry,
      handleCameraCapture, handleValidationComplete, handleRetry,
      initialState, phase, h1, h2, h3]

/-- Witness for C2: three concrete failed cycles against the challenge
`chSquare`. -/
theorem blocking_boundary_witness :
    phase (runList 3 initialState (threeFailures exCaptured exCaptured
        exCaptured chSquare chSquare chSquare [0] [0] [0])).1 =
      Phase.blocked ∧
      (runList 3 initialState (threeFailures exCaptured exCaptured
        exCaptured chSquare chSquare chSquare [0] [0] [0])).2.1 =
      [(false, 3)] :=
  ⟨(blocking_boundary exCaptured exCaptured exCaptured chSquare chSquare
      chSquare [0] [0] [0] (by decide) (by decide) (by decide)).2.2.2.1,
    (blocking_boundary exCaptured exCaptured exCaptured chSquare chSquare
      chSquare [0] [0] [0] (by decide) (by decide) (by decide)).2.2.2.2.2⟩

/-- **C5.** Every submission with an active challenge increments
`attemptCount` by exactly one; no event ever decreases it; and
`handleRetry` preserves it (and the attempt limit, a per-session
constant) while clearing the captured data and the challenge. -/
theorem attempt_monotonic :
    (∀ (maxAttempts : Nat) (s : CaptchaState) (sel : List Nat),
        s.challenge.isSome = true →
        (handleValidationComplete maxAttempts s sel).1.attemptCount =
          s.attemptCount + 1) ∧
      (∀ (maxAttempts : Nat) (s : CaptchaState) (e : Event),
        s.attemptCount ≤ (step maxAttempts s e).1.attemptCount) ∧
      ∀ s : CaptchaState,
        (handleRetry s).attemptCount = s.attemptCount ∧
          (handleRetry s).capturedData = none ∧
          (handleRetry s).challenge = none := by
  refine ⟨?_, ?_, fun s => ⟨rfl, rfl, rfl⟩⟩
  · intro maxAttempts s sel hch
    rw [Option.isSome_iff_exists] at hch
    obtain ⟨ch, hch⟩ := hch
    simp only [handleValidationComplete, hch]
    cases hok : isCorrect ch.correctSectors sel
    · by_cases hm : maxAttempts ≤ s.attemptCount + 1 <;> simp [hok, hm]
    · simp [hok]
  · intro maxAttempts s e
    cases e with
    | capture d ch => simp [step, handleCameraCapture]
    | retry => simp [step, handleRetry]
    | submit sel =>
      cases hch : s.challenge with
      | none => simp [step, handleValidationComplete, hch]
      | some ch =>
        simp only [step, handleValidationComplete, hch]
        cases hok : isCorrect ch.correctSectors sel
        · by_cases hm : maxAttempts ≤ s.attemptCount + 1 <;>
            simp [hok, hm]
        · simp [hok]

/-- Witness for C5: a submission against a concrete active challenge. -/
theorem attempt_monotonic_witness :
    (handleValidationComplete 3
        (handleCameraCapture initialState exCaptured chSquare)
        [0]).1.attemptCount =
      (handleCameraCapture initialState exCaptured chSquare).attemptCount
        + 1 :=
  attempt_monotonic.1 3
    (handleCameraCapture initialState exCaptured chSquare) [0] rfl

/-- **C7.** A submission without an active challenge is a complete
no-op (state unchanged, no `onComplete` invocation), and `handleRetry`
never modifies `attemptCount` from any state. -/
theorem defensive_contract :
    (∀ (maxAttempts : Nat) (s : CaptchaState) (sel : List Nat),
        s.challenge = none →
        handleValidationComplete maxAttempts s sel = (s, [])) ∧
      ∀ s : CaptchaState, (handleRetry s).attemptCount = s.attemptCount := by
  refine ⟨?_, fun s => rfl⟩
  intro maxAttempts s sel hch
  simp [handleValidationComplete, hch]

/-- Witness for C7: submitting from the initial state (no challenge)
changes nothing. -/
theorem defensive_contract_witness :
    handleValidationComplete 3 initialState [0] = (initialState, []) :=
  defensive_contract.1 3 initialState [0] rfl

/-- **C8.** The tolerance supplied to the selection step is
`max(1, maxAttempts - attemptCount)` — 1 at `(3, 2)`, 3 at `(3, 0)` —
and it has no effect on the scoring computation: the success flag a
submission writes does not depend on the attempt limit, hence not on
the tolerance derived from it. -/
theorem tolerance_decoupled :
    (∀ ma ac : Nat, toleranceLevel ma ac = max 1 ((ma : Int) - (ac : Int))) ∧
      toleranceLevel 3 2 = 1 ∧ toleranceLevel 3 0 = 3 ∧
      ∀ (ma1 ma2 : Nat) (s : CaptchaState) (sel : List Nat),
        (handleValidationComplete ma1 s sel).1.validationSuccess =
          (handleValidationComplete ma2 s sel).1.validationSuccess := by
  refine ⟨fun ma ac => rfl, by decide, by decide, ?_⟩
  intro ma1 ma2 s sel
  rw [handleValidationComplete_validationSuccess,
    handleValidationComplete_validationSuccess]

end Captcha
